import Mathlib

/-!
Shallow embedding of src/expressions/expressionscore.py.

The module defines an expression class hierarchy (Number, Symbol, and the
binary operators Add, Sub, Mul, Div, Pow), an iterative memoized post-order
traversal `postvisitor`, and a single-dispatch `differentiate`.

Three views of the code are embedded below, each faithful to a different
aspect of the Python semantics the claims need:

1. `Expression` — the expression tree as a pure inductive, with
   `differentiate` translated rule for rule from the singledispatch
   registrations (numeric values are modelled as `Int`; differentiation
   performs no arithmetic on them, so nothing is lost).  Errors raised by
   the Python code become `Except.error` carrying the exact message string.
   The `Sub` variant has no registration in the source, so dispatch falls
   back to the generic function, which raises
   "Cannot differentiate a Sub".

2. `PyObj` — a dynamic-value model of the constructors (`Expression.__init__`
   stores any operand tuple unchecked; `Number.__init__` and
   `Symbol.__init__` validate with isinstance and raise ValueError).

3. `Node`/arena — expression DAGs with node identity made explicit as an
   index into an arena list, used for `postvisitor` (whose memo dict is
   keyed by object identity, since the classes define no __eq__/__hash__)
   and for an allocation-explicit `differentiateA` (for the frame claim:
   differentiation only allocates, never mutates existing nodes).
-/

/-- The expression tree: terminal variants Number and Symbol, and the five
binary operator variants.  Mirrors the class hierarchy of the source. -/
inductive Expression where
  | Number (value : Int)
  | Symbol (value : String)
  | Add (left right : Expression)
  | Sub (left right : Expression)
  | Mul (left right : Expression)
  | Div (left right : Expression)
  | Pow (left right : Expression)
deriving DecidableEq, Repr

/-- Test used by the Pow rule: isinstance(exponent, Number). -/
def isNumberNode : Expression → Bool
  | .Number _ => true
  | _ => false

/-- Translation of the singledispatch differentiate: one equation per
registered class, in source order; Sub has no registration so it reaches
the generic fallback, which raises NotImplementedError naming the type.
Python exceptions are modelled as Except.error with the message string. -/
def differentiate : Expression → String → Except String Expression
  | .Number _, _ => .ok (.Number 0)
  | .Symbol s, var => .ok (if s = var then .Number 1 else .Number 0)
  | .Add f g, var => do
      let df ← differentiate f var
      let dg ← differentiate g var
      .ok (.Add df dg)
  | .Sub _ _, _ => .error "Cannot differentiate a Sub"
  | .Mul f g, var => do
      let df ← differentiate f var
      let dg ← differentiate g var
      .ok (.Add (.Mul df g) (.Mul dg f))
  | .Div f g, var => do
      let df ← differentiate f var
      let dg ← differentiate g var
      .ok (.Div (.Sub (.Mul df g) (.Mul dg f)) (.Pow g (.Number 2)))
  | .Pow base exponent, var =>
      if isNumberNode exponent then do
        let db ← differentiate base var
        .ok (.Mul (.Mul exponent (.Pow base (.Sub exponent (.Number 1)))) db)
      else
        .error "Variable exponents are not yet supported."

/-!
Dynamic-value model of the constructors.  Python objects relevant to
construction are ints, strings, None and expression instances; an
expression instance records its class (kind), its value attribute when it
is a Terminal, and its operands tuple.  Expression.__init__ stores the
supplied operand tuple with no validation of count or type;
Terminal.__init__ stores the value and passes no operands to
Expression.__init__; Number.__init__ and Symbol.__init__ first check
isinstance and raise ValueError on failure.
-/

inductive BinKind where
  | addK | subK | mulK | divK | powK
deriving DecidableEq, Repr

inductive PyKind where
  | numberK
  | symbolK
  | opK (b : BinKind)
deriving DecidableEq, Repr

inductive PyObj where
  | int (n : Int)
  | str (s : String)
  | noneV
  | exprObj (kind : PyKind) (value : Option PyObj) (operands : List PyObj)

/-- Python: isinstance(v, numbers.Number). -/
def isinstanceNumber : PyObj → Bool
  | .int _ => true
  | _ => false

/-- Python: isinstance(v, str). -/
def isinstanceStr : PyObj → Bool
  | .str _ => true
  | _ => false

/-- Python: isinstance(v, Expression). -/
def isinstanceExpression : PyObj → Bool
  | .exprObj _ _ _ => true
  | _ => false

/-- The operands attribute of an expression instance. -/
def pyOperands : PyObj → List PyObj
  | .exprObj _ _ ops => ops
  | _ => []

/-- Expression.__init__(self, *operands): stores the operand tuple as
given, with no check on its length or on the operands being Expressions.
Construction of a bare operator node cannot raise. -/
def ExpressionInit (kind : PyKind) (operands : List PyObj) : Except String PyObj :=
  .ok (.exprObj kind none operands)

/-- Number.__init__: isinstance check, then Terminal.__init__ stores the
value and calls Expression.__init__ with no operands. -/
def NumberInit (value : PyObj) : Except String PyObj :=
  if isinstanceNumber value then .ok (.exprObj .numberK (some value) [])
  else .error "Number must be a numeric value."

/-- Symbol.__init__: isinstance check, then Terminal.__init__ stores the
value and calls Expression.__init__ with no operands. -/
def SymbolInit (value : PyObj) : Except String PyObj :=
  if isinstanceStr value then .ok (.exprObj .symbolK (some value) [])
  else .error "Symbol must be a string."

/-!
Arena model: expression DAGs with explicit node identity.  The Python
classes define no __eq__ or __hash__, so the memo dict of postvisitor and
its membership tests are keyed by object identity; an arena index plays
the role of an object identity.  A node holds its operand references as
indices into the arena.
-/

inductive Node where
  | number (value : Int)
  | symbol (value : String)
  | binary (kind : BinKind) (left right : Nat)
deriving DecidableEq, Repr

abbrev Arena := List Node

/-- The operands tuple of a node, as identities, in left-to-right order. -/
def nodeOperands : Node → List Nat
  | .number _ => []
  | .symbol _ => []
  | .binary _ l r => [l, r]

/-- One record per visitor invocation: the node it was invoked on, the
positional child-result arguments, the keyword arguments, and the value
the visitor returned. -/
structure TraceEntry (R K : Type) where
  node : Nat
  args : List R
  kw : K
  result : R
deriving DecidableEq, Repr

/-- visited[o] for each o in operands, in order; none if any is absent. -/
def lookupAll {R : Type} (visited : List (Nat × R)) : List Nat → Option (List R)
  | [] => some []
  | o :: rest =>
      match visited.lookup o with
      | none => none
      | some r => (lookupAll visited rest).map (fun rs => r :: rs)

/-- The while-loop of postvisitor.  The stack is a list whose head is its
top (Python appends and pops at the end); pushing the node back followed by
stack.extend(unvisited_children) therefore puts the last unvisited child
on top.  The memo dict is an association list with the newest binding in
front, matching dict overwrite semantics.  The trace records every visitor
invocation in order; fuel makes the loop total, with none for running out
of fuel or for a dangling arena index (neither occurs on well-formed
acyclic input). -/
def postvisitorAux {R K : Type} (a : Arena) (visitor : Nat → List R → K → R) (kwargs : K) :
    Nat → List Nat → List (Nat × R) → List (TraceEntry R K) →
    Option (List (Nat × R) × List (TraceEntry R K))
  | _, [], visited, trace => some (visited, trace)
  | 0, _ :: _, _, _ => none
  | fuel + 1, e :: rest, visited, trace =>
      match a.get? e with
      | none => none
      | some node =>
          let unvisited := (nodeOperands node).filter (fun o => (visited.lookup o).isNone)
          if unvisited.isEmpty then
            match lookupAll visited (nodeOperands node) with
            | none => none
            | some args =>
                postvisitorAux a visitor kwargs fuel rest
                  ((e, visitor e args kwargs) :: visited)
                  (trace ++ [⟨e, args, kwargs, visitor e args kwargs⟩])
          else
            postvisitorAux a visitor kwargs fuel (unvisited.reverse ++ e :: rest) visited trace

/-- postvisitor(expr, visitor, **kwargs): run the loop from a stack holding
expr and an empty memo, then return visited[expr].  The returned trace is
instrumentation recording the visitor invocations. -/
def postvisitor {R K : Type} (fuel : Nat) (a : Arena) (expr : Nat)
    (visitor : Nat → List R → K → R) (kwargs : K) :
    Option (R × List (TraceEntry R K)) :=
  match postvisitorAux a visitor kwargs fuel [expr] [] [] with
  | none => none
  | some (visited, trace) => (visited.lookup expr).map (fun r => (r, trace))

/-- The latest result recorded in a trace for a given node identity: what
the memo dict holds for that node after those invocations. -/
def latestResult {R K : Type} (trace : List (TraceEntry R K)) (o : Nat) : Option R :=
  (trace.reverse.find? (fun en => en.node == o)).map (fun en => en.result)

/-- Allocate one new node: Python object construction appends to the heap
and yields the fresh identity; nothing already allocated is touched. -/
def alloc (a : Arena) (n : Node) : Arena × Nat :=
  (a ++ [n], a.length)

/-- differentiate over the arena, with allocation explicit.  Each rule is
the corresponding singledispatch registration, its constructions performed
in Python evaluation order (arguments left to right, innermost first).
Existing nodes are only ever read and referenced; every constructed node
goes through alloc.  Sub reaches the generic fallback and raises; a Pow
with a non-Number exponent raises.  Fuel makes the recursion total; none
means fuel ran out or the index dangles. -/
def differentiateA : Nat → Arena → Nat → String → Option (Except String (Arena × Nat))
  | 0, _, _, _ => none
  | fuel + 1, a, i, var =>
      match a.get? i with
      | none => none
      | some (.number _) => some (.ok (alloc a (.number 0)))
      | some (.symbol s) => some (.ok (alloc a (.number (if s = var then 1 else 0))))
      | some (.binary .addK f g) =>
          match differentiateA fuel a f var with
          | none => none
          | some (.error msg) => some (.error msg)
          | some (.ok (a1, df)) =>
              match differentiateA fuel a1 g var with
              | none => none
              | some (.error msg) => some (.error msg)
              | some (.ok (a2, dg)) => some (.ok (alloc a2 (.binary .addK df dg)))
      | some (.binary .subK _ _) => some (.error "Cannot differentiate a Sub")
      | some (.binary .mulK f g) =>
          match differentiateA fuel a f var with
          | none => none
          | some (.error msg) => some (.error msg)
          | some (.ok (a1, df)) =>
              let (a2, m1) := alloc a1 (.binary .mulK df g)
              match differentiateA fuel a2 g var with
              | none => none
              | some (.error msg) => some (.error msg)
              | some (.ok (a3, dg)) =>
                  let (a4, m2) := alloc a3 (.binary .mulK dg f)
                  some (.ok (alloc a4 (.binary .addK m1 m2)))
      | some (.binary .divK f g) =>
          match differentiateA fuel a f var with
          | none => none
          | some (.error msg) => some (.error msg)
          | some (.ok (a1, df)) =>
              let (a2, m1) := alloc a1 (.binary .mulK df g)
              match differentiateA fuel a2 g var with
              | none => none
              | some (.error msg) => some (.error msg)
              | some (.ok (a3, dg)) =>
                  let (a4, m2) := alloc a3 (.binary .mulK dg f)
                  let (a5, s1) := alloc a4 (.binary .subK m1 m2)
                  let (a6, n2) := alloc a5 (.number 2)
                  let (a7, p1) := alloc a6 (.binary .powK g n2)
                  some (.ok (alloc a7 (.binary .divK s1 p1)))
      | some (.binary .powK base exponent) =>
          match a.get? exponent with
          | some (.number _) =>
              let (a1, n1) := alloc a (.number 1)
              let (a2, s1) := alloc a1 (.binary .subK exponent n1)
              let (a3, p1) := alloc a2 (.binary .powK base s1)
              let (a4, m1) := alloc a3 (.binary .mulK exponent p1)
              match differentiateA fuel a4 base var with
              | none => none
              | some (.error msg) => some (.error msg)
              | some (.ok (a5, db)) => some (.ok (alloc a5 (.binary .mulK m1 db)))
          | _ => some (.error "Variable exponents are not yet supported.")

/-- C2: the difference rule.  The claim says differentiate(Sub(f, g), var)
returns Sub(differentiate(f, var), differentiate(g, var)) and never raises
on differentiable operands; but no rule is registered for Sub, so dispatch
falls through to the generic function, which raises NotImplementedError.
This theorem evaluates the code at the failing input Sub(Symbol("x"),
Number(1)) with var "x": it raises instead of returning
Sub(Number(1), Number(0)). -/
theorem differentiate_Sub_raises :
    differentiate (.Sub (.Symbol "x") (.Number 1)) "x" =
      .error "Cannot differentiate a Sub" := by
  rfl

/-- C3 counterexample: a Pow node whose exponent IS a NumberLiteral on
which differentiate nevertheless raises the variable-exponent
UnsupportedOperation error, because the error raised while differentiating
the base propagates: differentiate(Pow(Pow(x, y), Number(2)), "x"). -/
theorem differentiate_Pow_constant_exponent_error_cex :
    isNumberNode (.Number 2) = true ∧
    differentiate (.Pow (.Pow (.Symbol "x") (.Symbol "y")) (.Number 2)) "x" =
      .error "Variable exponents are not yet supported." := by
  exact ⟨rfl, rfl⟩

/-- C3 (amended): differentiate on a Pow node raises the variable-exponent
error directly if and only if the exponent is not a NumberLiteral; with a
NumberLiteral exponent the Pow rule itself raises nothing — the result is
exactly the mapped derivative of the base, so the only possible error is
one propagated from differentiating the base. -/
theorem differentiate_Pow_error_characterization (b e : Expression) (var : String) :
    (isNumberNode e = false →
      differentiate (.Pow b e) var =
        .error "Variable exponents are not yet supported.") ∧
    (isNumberNode e = true →
      differentiate (.Pow b e) var =
        (differentiate b var).map
          (fun db => .Mul (.Mul e (.Pow b (.Sub e (.Number 1)))) db)) := by
  constructor
  · intro h
    simp [differentiate, h]
  · intro h
    cases hb : differentiate b var <;>
      simp [differentiate, h, hb, Except.map, Bind.bind, Except.bind]

/-- Witness for C3: at base Symbol("x"), exponent Symbol("y"), var "x" the
first branch applies and yields the documented error. -/
theorem differentiate_Pow_error_characterization_witness :
    isNumberNode (.Symbol "y") = false ∧
    differentiate (.Pow (.Symbol "x") (.Symbol "y")) "x" =
      .error "Variable exponents are not yet supported." :=
  ⟨rfl, (differentiate_Pow_error_characterization (.Symbol "x") (.Symbol "y") "x").1 rfl⟩

/-- C6: the generalized power rule.  For a NumberLiteral exponent n, once
differentiating the base succeeds with db, differentiate(Pow(b, n), var)
returns exactly Mul(Mul(n, Pow(b, Sub(n, Number(1)))), db). -/
theorem differentiate_Pow_power_rule (b : Expression) (n : Int) (var : String)
    (db : Expression) (h : differentiate b var = .ok db) :
    differentiate (.Pow b (.Number n)) var =
      .ok (.Mul (.Mul (.Number n) (.Pow b (.Sub (.Number n) (.Number 1)))) db) := by
  simp [differentiate, isNumberNode, h, Bind.bind, Except.bind]

/-- Witness for C6: base Symbol("x"), exponent Number(3), var "x". -/
theorem differentiate_Pow_power_rule_witness :
    differentiate (.Pow (.Symbol "x") (.Number 3)) "x" =
      .ok (.Mul (.Mul (.Number 3) (.Pow (.Symbol "x") (.Sub (.Number 3) (.Number 1))))
            (.Number 1)) :=
  differentiate_Pow_power_rule (.Symbol "x") 3 "x" (.Number 1) rfl

/-- C4 counterexample: the claim says constructing a binary operator with
any number of operands other than two, or with non-Expression operands, is
rejected.  Expression.__init__ performs no validation: an Add with zero
operands and an Add with two ints are both accepted and store the operand
tuple as given. -/
theorem operator_construction_unvalidated_cex :
    ExpressionInit (.opK .addK) [] = .ok (.exprObj (.opK .addK) none []) ∧
    pyOperands (.exprObj (.opK .addK) none []) = [] ∧
    ExpressionInit (.opK .addK) [.int 1, .int 2] =
      .ok (.exprObj (.opK .addK) none [.int 1, .int 2]) ∧
    isinstanceExpression (.int 1) = false :=
  ⟨rfl, rfl, rfl, rfl⟩

/-- C4 (amended): operator construction always succeeds and stores exactly
the supplied operand tuple, performing no arity or type validation (so a
well-formed two-operand construction has operand count two, but nothing
else is rejected); terminal construction, when it succeeds, always stores
zero operands.  Nodes carry their operand tuple immutably — no mutating
operation exists in the model, as none exists in the source. -/
theorem construction_operands_amended (k : PyKind) (ops : List PyObj) (v w ex ey : PyObj) :
    ExpressionInit k ops = .ok (.exprObj k none ops) ∧
    (NumberInit v = .ok ex → pyOperands ex = []) ∧
    (SymbolInit w = .ok ey → pyOperands ey = []) := by
  refine ⟨rfl, ?_, ?_⟩
  · intro h
    unfold NumberInit at h
    split at h
    · injection h with h2
      subst h2
      rfl
    · exact Except.noConfusion h
  · intro h
    unfold SymbolInit at h
    split at h
    · injection h with h2
      subst h2
      rfl
    · exact Except.noConfusion h

/-- Witness for C4: a two-operand Mul of Number instances is stored with
exactly those two operands, and a Number instance has zero operands. -/
theorem construction_operands_amended_witness :
    ExpressionInit (.opK .mulK)
        [.exprObj .numberK (some (.int 1)) [], .exprObj .numberK (some (.int 2)) []] =
      .ok (.exprObj (.opK .mulK) none
        [.exprObj .numberK (some (.int 1)) [], .exprObj .numberK (some (.int 2)) []]) ∧
    pyOperands (.exprObj .numberK (some (.int 3)) []) = [] :=
  ⟨(construction_operands_amended (.opK .mulK)
      [.exprObj .numberK (some (.int 1)) [], .exprObj .numberK (some (.int 2)) []]
      (.int 3) (.str "x") (.exprObj .numberK (some (.int 3)) [])
      (.exprObj .symbolK (some (.str "x")) [])).1,
   (construction_operands_amended (.opK .mulK)
      [.exprObj .numberK (some (.int 1)) [], .exprObj .numberK (some (.int 2)) []]
      (.int 3) (.str "x") (.exprObj .numberK (some (.int 3)) [])
      (.exprObj .symbolK (some (.str "x")) [])).2.1 rfl⟩

/-- C5 counterexample: the claim says Symbol("") fails because the name
must be a non-empty string.  Symbol.__init__ only checks isinstance(value,
str), so the empty string is accepted. -/
theorem symbol_empty_string_accepted_cex :
    SymbolInit (.str "") = .ok (.exprObj .symbolK (some (.str "")) []) :=
  rfl

/-- C5 (amended): constructing a Symbol succeeds if and only if the
supplied value is textual; the empty string is textual and is accepted —
no non-emptiness check is performed. -/
theorem symbol_construction_iff_textual (v : PyObj) :
    (∃ e, SymbolInit v = .ok e) ↔ isinstanceStr v = true := by
  cases v <;> simp [SymbolInit, isinstanceStr]

/-- Witness for C5: the empty string is accepted. -/
theorem symbol_construction_iff_textual_witness :
    ∃ e, SymbolInit (.str "") = .ok e :=
  (symbol_construction_iff_textual (.str "")).mpr rfl

/-- C7: Number construction raises exactly when the supplied value is not
numeric, Symbol construction raises exactly when the supplied value is not
textual, and a successful construction performs no other validation and
stores the supplied value unchanged. -/
theorem terminal_construction_type_checks (v : PyObj) :
    ((∃ msg, NumberInit v = .error msg) ↔ isinstanceNumber v = false) ∧
    ((∃ msg, SymbolInit v = .error msg) ↔ isinstanceStr v = false) ∧
    (isinstanceNumber v = true → NumberInit v = .ok (.exprObj .numberK (some v) [])) ∧
    (isinstanceStr v = true → SymbolInit v = .ok (.exprObj .symbolK (some v) [])) := by
  cases v <;> simp [NumberInit, SymbolInit, isinstanceNumber, isinstanceStr]

/-- Witness for C7: Number("not a number") and Symbol(42) raise, and
Number(5) stores the value 5. -/
theorem terminal_construction_type_checks_witness :
    (∃ msg, NumberInit (.str "not a number") = .error msg) ∧
    (∃ msg, SymbolInit (.int 42) = .error msg) ∧
    NumberInit (.int 5) = .ok (.exprObj .numberK (some (.int 5)) []) :=
  ⟨(terminal_construction_type_checks (.str "not a number")).1.mpr rfl,
   (terminal_construction_type_checks (.int 42)).2.1.mpr rfl,
   (terminal_construction_type_checks (.int 5)).2.2.1 rfl⟩

/-- A trace entry is justified by the entries before it: for the node it
was invoked on, the recorded arguments are exactly the memoized results of
the operand tuple, in left-to-right order, at invocation time. -/
def GoodEntry {R K : Type} (a : Arena) (pre : List (TraceEntry R K)) (en : TraceEntry R K) : Prop :=
  ∀ node, a.get? en.node = some node →
    (nodeOperands node).map (latestResult pre) = en.args.map some

/-- Every entry of a trace is justified by the entries before it. -/
def GoodTrace {R K : Type} (a : Arena) (trace : List (TraceEntry R K)) : Prop :=
  ∀ idx en, trace.get? idx = some en → GoodEntry a (trace.take idx) en

theorem latestResult_snoc {R K : Type} (trace : List (TraceEntry R K)) (E : TraceEntry R K)
    (o : Nat) :
    latestResult (trace ++ [E]) o =
      if E.node = o then some E.result else latestResult trace o := by
  unfold latestResult
  simp only [List.reverse_append, List.reverse_singleton, List.singleton_append]
  by_cases h : E.node = o
  · rw [List.find?_cons_of_pos _ (by simp [h])]
    simp [h]
  · rw [List.find?_cons_of_neg _ (by simp [h])]
    simp [h]

theorem memoInv_snoc {R K : Type} (visited : List (Nat × R)) (trace : List (TraceEntry R K))
    (E : TraceEntry R K)
    (hinv : ∀ o, visited.lookup o = latestResult trace o) (o : Nat) :
    ((E.node, E.result) :: visited).lookup o = latestResult (trace ++ [E]) o := by
  rw [latestResult_snoc, List.lookup_cons]
  by_cases h : E.node = o
  · subst h
    simp
  · have hne : (o == E.node) = false := by
      simp [Ne.symm h]
    simp [hne, h, hinv o]

theorem lookupAll_eq_map {R : Type} (visited : List (Nat × R)) (ops : List Nat)
    (args : List R) (h : lookupAll visited ops = some args) :
    ops.map (fun o => visited.lookup o) = args.map some := by
  induction ops generalizing args with
  | nil =>
      simp [lookupAll] at h
      subst h
      simp
  | cons o rest ih =>
      unfold lookupAll at h
      cases hl : visited.lookup o with
      | none =>
          rw [hl] at h
          exact absurd h (by simp)
      | some r =>
          rw [hl] at h
          cases hrest : lookupAll visited rest with
          | none =>
              rw [hrest] at h
              exact absurd h (by simp)
          | some rs =>
              rw [hrest] at h
              simp at h
              subst h
              simp [hl, ih rs hrest]

theorem goodTrace_nil {R K : Type} (a : Arena) : GoodTrace a ([] : List (TraceEntry R K)) := by
  intro idx en h
  simp at h

theorem goodTrace_snoc {R K : Type} (a : Arena) (t : List (TraceEntry R K))
    (E : TraceEntry R K) (h : GoodTrace a t) (hE : GoodEntry a t E) :
    GoodTrace a (t ++ [E]) := by
  intro idx en hget
  rcases Nat.lt_trichotomy idx t.length with hlt | heq | hgt
  · rw [List.get?_append hlt] at hget
    have htake : (t ++ [E]).take idx = t.take idx := by
      rw [List.take_append_eq_append_take, Nat.sub_eq_zero_of_le (Nat.le_of_lt hlt)]
      simp
    rw [htake]
    exact h idx en hget
  · subst heq
    rw [List.get?_concat_length] at hget
    injection hget with hget
    subst hget
    rw [List.take_left]
    exact hE
  · have : (t ++ [E]).get? idx = none := by
      rw [List.get?_eq_none]
      simp
      omega
    rw [this] at hget
    exact absurd hget (by simp)

/-- Loop invariant of postvisitor: when the loop finishes, the memo agrees
with the latest trace results and every recorded invocation received the
memoized operand results of its node, in operand order, all recorded by
invocations that came earlier. -/
theorem postvisitorAux_spec {R K : Type} (a : Arena) (visitor : Nat → List R → K → R)
    (kwargs : K) :
    ∀ fuel stack visited trace visitedF traceF,
      postvisitorAux a visitor kwargs fuel stack visited trace = some (visitedF, traceF) →
      (∀ o, visited.lookup o = latestResult trace o) →
      GoodTrace a trace →
      (∀ o, visitedF.lookup o = latestResult traceF o) ∧ GoodTrace a traceF := by
  intro fuel
  induction fuel with
  | zero =>
      intro stack visited trace vF tF h hinv hgood
      cases stack with
      | nil =>
          simp [postvisitorAux] at h
          obtain ⟨h1, h2⟩ := h
          subst h1
          subst h2
          exact ⟨hinv, hgood⟩
      | cons e rest =>
          simp [postvisitorAux] at h
  | succ fuel ih =>
      intro stack visited trace vF tF h hinv hgood
      cases stack with
      | nil =>
          simp [postvisitorAux] at h
          obtain ⟨h1, h2⟩ := h
          subst h1
          subst h2
          exact ⟨hinv, hgood⟩
      | cons e rest =>
          simp only [postvisitorAux] at h
          split at h
          · exact absurd h (by simp)
          · rename_i node hget
            split at h
            · split at h
              · exact absurd h (by simp)
              · rename_i hempty args hargs
                refine ih rest _ _ vF tF h ?_ ?_
                · exact memoInv_snoc visited trace ⟨e, args, kwargs, visitor e args kwargs⟩ hinv
                · refine goodTrace_snoc a trace ⟨e, args, kwargs, visitor e args kwargs⟩ hgood ?_
                  intro node2 hget2
                  have hnode2 : node2 = node := by
                    rw [hget] at hget2
                    injection hget2 with hx
                    exact hx.symm
                  subst hnode2
                  have hmap := lookupAll_eq_map visited (nodeOperands node2) args hargs
                  calc (nodeOperands node2).map (latestResult trace)
                      = (nodeOperands node2).map (fun o => visited.lookup o) :=
                        List.map_congr_left (fun o _ => (hinv o).symm)
                    _ = args.map some := hmap
            · exact ih _ _ _ vF tF h hinv hgood

theorem latestResult_mem {R K : Type} (pre : List (TraceEntry R K)) (o : Nat) (r : R)
    (h : latestResult pre o = some r) :
    ∃ prev, prev ∈ pre ∧ prev.node = o ∧ prev.result = r := by
  unfold latestResult at h
  cases hf : pre.reverse.find? (fun en => en.node == o) with
  | none =>
      rw [hf] at h
      exact absurd h (by simp)
  | some en =>
      rw [hf] at h
      simp at h
      refine ⟨en, ?_, ?_, h⟩
      · exact List.mem_reverse.mp (List.mem_of_find?_eq_some hf)
      · have hp := List.find?_some hf
        simpa using hp

/-- The shared Add(Symbol("a"), Symbol("b")) arena: node 0 is Symbol "a",
node 1 is Symbol "b", node 2 the Add with operands (0, 1). -/
def abArena : Arena := [.symbol "a", .symbol "b", .binary .addK 0 1]

/-- C8: whenever a postvisitor run completes, every visitor invocation on
a node received exactly the memoized results of that node's operands, in
left-to-right operand order, each operand having had the visitor invoked
on it strictly earlier in the traversal; and the value postvisitor returns
is the memoized visitor result for the root. -/
theorem postvisitor_postorder_spec {R K : Type} (fuel : Nat) (a : Arena) (expr : Nat)
    (visitor : Nat → List R → K → R) (kwargs : K) (result : R)
    (trace : List (TraceEntry R K))
    (h : postvisitor fuel a expr visitor kwargs = some (result, trace)) :
    (∀ pre en post node, trace = pre ++ en :: post → a.get? en.node = some node →
        ((nodeOperands node).map (latestResult pre) = en.args.map some ∧
         ∀ o ∈ nodeOperands node, ∃ prev, prev ∈ pre ∧ prev.node = o)) ∧
    latestResult trace expr = some result := by
  unfold postvisitor at h
  cases haux : postvisitorAux a visitor kwargs fuel [expr] [] [] with
  | none =>
      rw [haux] at h
      exact absurd h (by simp)
  | some p =>
      obtain ⟨visited, tr⟩ := p
      rw [haux] at h
      simp only [Option.map] at h
      cases hl : visited.lookup expr with
      | none =>
          rw [hl] at h
          exact absurd h (by simp)
      | some r0 =>
          rw [hl] at h
          simp at h
          obtain ⟨h1, h2⟩ := h
          subst h1
          subst h2
          obtain ⟨hinv, hgood⟩ :=
            postvisitorAux_spec a visitor kwargs fuel [expr] [] [] visited _ haux
              (by intro o; simp [latestResult]) (goodTrace_nil a)
          constructor
          · intro pre en post node htr hget
            have hgetIdx : tr.get? pre.length = some en := by
              rw [htr, List.get?_append_right (le_refl pre.length)]
              simp
            have htake : tr.take pre.length = pre := by
              rw [htr]
              exact List.take_left pre (en :: post)
            have hentry := hgood pre.length en hgetIdx
            rw [htake] at hentry
            have hmap := hentry node hget
            refine ⟨hmap, ?_⟩
            intro o ho
            have hmem : latestResult pre o ∈ (nodeOperands node).map (latestResult pre) :=
              List.mem_map_of_mem _ ho
            rw [hmap] at hmem
            obtain ⟨r1, _, hr2⟩ := List.mem_map.mp hmem
            obtain ⟨prev, hp1, hp2, _⟩ := latestResult_mem pre o r1 hr2.symm
            exact ⟨prev, hp1, hp2⟩
          · rw [← hinv expr]
            exact hl

/-- Witness for C8: the run on Add(Symbol("a"), Symbol("b")) with the
identity-of-node visitor succeeds; the Add invocation (node 2) received
[result of node 0, result of node 1] in that order and the returned value
is the memoized result for node 2. -/
theorem postvisitor_postorder_spec_witness :
    (nodeOperands (.binary .addK 0 1)).map
        (latestResult ([⟨1, [], (), 1⟩, ⟨0, [], (), 0⟩] : List (TraceEntry Nat Unit))) =
      ([0, 1] : List Nat).map some ∧
    latestResult
        ([⟨1, [], (), 1⟩, ⟨0, [], (), 0⟩, ⟨2, [0, 1], (), 2⟩] : List (TraceEntry Nat Unit)) 2 =
      some 2 :=
  ⟨((postvisitor_postorder_spec 10 abArena 2 (fun i _ _ => i) () 2
      [⟨1, [], (), 1⟩, ⟨0, [], (), 0⟩, ⟨2, [0, 1], (), 2⟩] rfl).1
      [⟨1, [], (), 1⟩, ⟨0, [], (), 0⟩] ⟨2, [0, 1], (), 2⟩ [] (.binary .addK 0 1)
      rfl rfl).1,
   (postvisitor_postorder_spec 10 abArena 2 (fun i _ _ => i) () 2
      [⟨1, [], (), 1⟩, ⟨0, [], (), 0⟩, ⟨2, [0, 1], (), 2⟩] rfl).2⟩

theorem postvisitorAux_kw {R K : Type} (a : Arena) (visitor : Nat → List R → K → R)
    (kwargs : K) :
    ∀ fuel stack visited trace visitedF traceF,
      postvisitorAux a visitor kwargs fuel stack visited trace = some (visitedF, traceF) →
      (∀ en ∈ trace, en.kw = kwargs) →
      ∀ en ∈ traceF, en.kw = kwargs := by
  intro fuel
  induction fuel with
  | zero =>
      intro stack visited trace vF tF h hkw
      cases stack with
      | nil =>
          simp [postvisitorAux] at h
          obtain ⟨h1, h2⟩ := h
          subst h2
          exact hkw
      | cons e rest => simp [postvisitorAux] at h
  | succ fuel ih =>
      intro stack visited trace vF tF h hkw
      cases stack with
      | nil =>
          simp [postvisitorAux] at h
          obtain ⟨h1, h2⟩ := h
          subst h2
          exact hkw
      | cons e rest =>
          simp only [postvisitorAux] at h
          split at h
          · exact absurd h (by simp)
          · rename_i node hget
            split at h
            · split at h
              · exact absurd h (by simp)
              · rename_i hempty args hargs
                refine ih rest _ _ vF tF h ?_
                intro en hen
                rcases List.mem_append.mp hen with hml | hmr
                · exact hkw en hml
                · have heq := List.mem_singleton.mp hmr
                  subst heq
                  rfl
            · exact ih _ _ _ vF tF h hkw

/-- C10: every keyword argument supplied to postvisitor is forwarded
unchanged to every single visitor invocation of the traversal. -/
theorem postvisitor_kwargs_forwarded {R K : Type} (fuel : Nat) (a : Arena) (expr : Nat)
    (visitor : Nat → List R → K → R) (kwargs : K) (result : R)
    (trace : List (TraceEntry R K))
    (h : postvisitor fuel a expr visitor kwargs = some (result, trace)) :
    ∀ en ∈ trace, en.kw = kwargs := by
  unfold postvisitor at h
  cases haux : postvisitorAux a visitor kwargs fuel [expr] [] [] with
  | none =>
      rw [haux] at h
      exact absurd h (by simp)
  | some p =>
      obtain ⟨visited, tr⟩ := p
      rw [haux] at h
      simp only [Option.map] at h
      cases hl : visited.lookup expr with
      | none =>
          rw [hl] at h
          exact absurd h (by simp)
      | some r0 =>
          rw [hl] at h
          simp at h
          obtain ⟨h1, h2⟩ := h
          subst h2
          exact postvisitorAux_kw a visitor kwargs fuel [expr] [] [] visited tr haux
            (by intro en hen; exact absurd hen (List.not_mem_nil en))

/-- Witness for C10: running on the Add arena with keyword value 7, the
final invocation record carries exactly 7. -/
theorem postvisitor_kwargs_forwarded_witness :
    TraceEntry.kw (⟨2, [7, 8], 7, 9⟩ : TraceEntry Nat Nat) = 7 :=
  postvisitor_kwargs_forwarded 10 abArena 2 (fun i _ k => i + k) 7 9
    [⟨1, [], 7, 8⟩, ⟨0, [], 7, 7⟩, ⟨2, [7, 8], 7, 9⟩] rfl
    ⟨2, [7, 8], 7, 9⟩ (by simp)

theorem take_append_self (a : Arena) (l : List Node) : (a ++ l).take a.length = a :=
  List.take_left a l

theorem take_prefix_length_le (a b : Arena) (h : b.take a.length = a) :
    a.length ≤ b.length := by
  have h2 := congrArg List.length h
  rw [List.length_take] at h2
  rcases Nat.le_total a.length b.length with h3 | h3
  · exact h3
  · rw [Nat.min_eq_right h3] at h2
    omega

theorem take_prefix_trans (a b c : Arena) (hab : b.take a.length = a)
    (hbc : c.take b.length = b) : c.take a.length = a := by
  have hlen := take_prefix_length_le a b hab
  have h1 : (c.take b.length).take a.length = c.take (min a.length b.length) :=
    List.take_take a.length b.length c
  rw [Nat.min_eq_left hlen] at h1
  rw [← h1, hbc, hab]

/-- C9: differentiation never alters its input.  Whenever differentiateA
succeeds, the output arena extends the input arena — every node of the
input keeps its variant kind, stored value and operand tuple at its
identity — and the returned derivative root is a newly allocated node, not
one of the input nodes. -/
theorem differentiateA_frame :
    ∀ fuel (a : Arena) (i : Nat) (var : String) (a2 : Arena) (r : Nat),
      differentiateA fuel a i var = some (.ok (a2, r)) →
      a2.take a.length = a ∧ a.length ≤ r := by
  intro fuel
  induction fuel with
  | zero =>
      intro a i var a2 r h
      simp [differentiateA] at h
  | succ fuel ih =>
      intro a i var a2 r h
      simp only [differentiateA, alloc] at h
      split at h
      · exact absurd h (by simp)
      · simp only [Option.some.injEq, Except.ok.injEq, Prod.mk.injEq] at h
        obtain ⟨h1, h2⟩ := h
        subst h1
        exact ⟨take_append_self a _, Nat.le_of_eq h2⟩
      · simp only [Option.some.injEq, Except.ok.injEq, Prod.mk.injEq] at h
        obtain ⟨h1, h2⟩ := h
        subst h1
        exact ⟨take_append_self a _, Nat.le_of_eq h2⟩
      · rename_i f g hgeti
        split at h
        · exact absurd h (by simp)
        · exact absurd h (by simp)
        · rename_i a1 df hrec1
          split at h
          · exact absurd h (by simp)
          · exact absurd h (by simp)
          · rename_i a3 dg hrec2
            simp only [Option.some.injEq, Except.ok.injEq, Prod.mk.injEq] at h
            obtain ⟨h1, h2⟩ := h
            subst h1
            obtain ⟨p1, q1⟩ := ih a f var a1 df hrec1
            obtain ⟨p2, q2⟩ := ih a1 g var a3 dg hrec2
            have l1 := take_prefix_length_le a a1 p1
            have l2 := take_prefix_length_le a1 a3 p2
            have c2 : a3.take a.length = a := take_prefix_trans a a1 a3 p1 p2
            constructor
            · exact take_prefix_trans a a3 _ c2 (take_append_self a3 _)
            · rw [← h2]
              omega
      · exact absurd h (by simp)
      · rename_i f g hgeti
        split at h
        · exact absurd h (by simp)
        · exact absurd h (by simp)
        · rename_i a1 df hrec1
          split at h
          · exact absurd h (by simp)
          · exact absurd h (by simp)
          · rename_i a3 dg hrec2
            simp only [Option.some.injEq, Except.ok.injEq, Prod.mk.injEq] at h
            obtain ⟨h1, h2⟩ := h
            subst h1
            obtain ⟨p1, q1⟩ := ih a f var a1 df hrec1
            obtain ⟨p2, q2⟩ := ih _ g var a3 dg hrec2
            have l1 := take_prefix_length_le a a1 p1
            have l2 := take_prefix_length_le _ a3 p2
            simp only [List.length_append, List.length_singleton] at l2
            have c2 : a3.take a.length = a :=
              take_prefix_trans a _ a3
                (take_prefix_trans a a1 _ p1 (take_append_self a1 _)) p2
            constructor
            · exact take_prefix_trans a _ _
                (take_prefix_trans a a3 _ c2 (take_append_self a3 _))
                (take_append_self _ _)
            · rw [← h2]
              simp only [List.length_append, List.length_singleton]
              omega
      · rename_i f g hgeti
        split at h
        · exact absurd h (by simp)
        · exact absurd h (by simp)
        · rename_i a1 df hrec1
          split at h
          · exact absurd h (by simp)
          · exact absurd h (by simp)
          · rename_i a3 dg hrec2
            simp only [Option.some.injEq, Except.ok.injEq, Prod.mk.injEq] at h
            obtain ⟨h1, h2⟩ := h
            subst h1
            obtain ⟨p1, q1⟩ := ih a f var a1 df hrec1
            obtain ⟨p2, q2⟩ := ih _ g var a3 dg hrec2
            have l1 := take_prefix_length_le a a1 p1
            have l2 := take_prefix_length_le _ a3 p2
            simp only [List.length_append, List.length_singleton] at l2
            have c2 : a3.take a.length = a :=
              take_prefix_trans a _ a3
                (take_prefix_trans a a1 _ p1 (take_append_self a1 _)) p2
            constructor
            · exact take_prefix_trans a _ _
                (take_prefix_trans a _ _
                  (take_prefix_trans a _ _
                    (take_prefix_trans a _ _
                      (take_prefix_trans a a3 _ c2 (take_append_self a3 _))
                      (take_append_self _ _))
                    (take_append_self _ _))
                  (take_append_self _ _))
                (take_append_self _ _)
            · rw [← h2]
              simp only [List.length_append, List.length_singleton]
              omega
      · rename_i base exponent hgeti
        split at h
        · split at h
          · exact absurd h (by simp)
          · exact absurd h (by simp)
          · rename_i a5 db hrec
            simp only [Option.some.injEq, Except.ok.injEq, Prod.mk.injEq] at h
            obtain ⟨h1, h2⟩ := h
            subst h1
            obtain ⟨p1, q1⟩ := ih _ base var a5 db hrec
            have l1 := take_prefix_length_le _ a5 p1
            simp only [List.length_append, List.length_singleton] at l1
            have c1 : a5.take a.length = a :=
              take_prefix_trans a _ a5
                (take_prefix_trans a _ _
                  (take_prefix_trans a _ _
                    (take_prefix_trans a _ _
                      (take_prefix_trans a a _ (by simp) (take_append_self a _))
                      (take_append_self _ _))
                    (take_append_self _ _))
                  (take_append_self _ _))
                p1
            constructor
            · exact take_prefix_trans a a5 _ c1 (take_append_self a5 _)
            · rw [← h2]
              omega
        · exact absurd h (by simp)

/-- Witness for C9: differentiating the one-node arena holding Symbol "x"
leaves that node in place and allocates the derivative Number 1 after
it. -/
theorem differentiateA_frame_witness :
    ([Node.symbol "x", Node.number 1].take [Node.symbol "x"].length = [Node.symbol "x"]) ∧
    [Node.symbol "x"].length ≤ 1 :=
  differentiateA_frame 5 [.symbol "x"] 0 "x" [.symbol "x", .number 1] 1 rfl

/-- The Mul(x, x) DAG built from one shared Symbol node: node 0 is the
Symbol, node 1 the Mul whose two operands are both node 0. -/
def xmulArena : Arena := [.symbol "x", .binary .mulK 0 0]

/-- C1: the claim says every distinct node has the visitor invoked on it
exactly once, including a node appearing twice as an operand of one
parent.  Evaluating the code on Mul(x, x) with a shared Symbol node: the
unvisited-children list [x, x] keeps the duplicate, x is pushed twice
before its first visit, and the visitor is invoked on it twice (the Mul
node is invoked once).  This contradicts the docstring "Visiting each
subexpression only once." -/
theorem postvisitor_shared_node_double_visit :
    (postvisitor 10 xmulArena 1 (fun i _ _ => i) ()).map
        (fun p => ((p.2.filter (fun en => en.node == 0)).length,
                   (p.2.filter (fun en => en.node == 1)).length)) =
      some (2, 1) := by
  rfl
